import Mathlib

/-!
# Verification of the Pick'Em prediction-optimization engine

A shallow embedding of `backend/src/optimizer.py` (classes
`PickEmOptimizer`, `OptimizationInput`, `OptimizationResult`) and of the
classifier `MatchClassificationService._classify_single_match` from
`backend/src/odds_ingestion.py`.

Modelling conventions:
* Python floats are modelled as exact rationals (`ℚ`); the properties
  verified here are structural (lengths, sums, selection order) and do not
  depend on rounding.
* `np.random.random` draws are passed explicitly: one rational per match
  per trial (`rands : List ℚ`), one matrix of draws per Monte Carlo call,
  and a stream `rnd : ℕ → List (List ℚ)` indexed by combination number for
  a whole `optimize` run.
* Python exceptions are modelled with `Except String`; the error strings
  mirror the messages raised in the source.
* Python sets (`safe_matches`, `unsafe_matches`) are modelled as lists
  recording their iteration order; set-ness is a `Nodup` hypothesis where
  it matters.
* Out-of-range list indexing raises `IndexError` in Python; the model uses
  `getD` with a default, and every theorem touching an index carries the
  in-range hypothesis under which model and source agree.
* Fields of `OptimizationResult` that no verified property mentions
  (`alternative_strategies`, `execution_time_ms`, the per-match
  `match_risks` sub-dictionary and the `volatility_index`, which needs a
  real square root) are omitted from the model structure.
-/

/-- One side of a match; the source uses the strings `'team_a'` / `'team_b'`. -/
inductive Side where
  | team_a : Side
  | team_b : Side
deriving DecidableEq, BEq

/-- `OptimizationInput` (optimizer.py lines 10-18).  The `constraints`
dictionary is only ever read through `constraints.get('total_picks', 9)`,
modelled by the field `total_picks`. -/
structure OptimizationInput where
  odds_vector : List ℚ
  safe_matches : List String
  unsafe_matches : List String
  total_picks : ℕ
  target_score : ℕ
  match_ids : List String
deriving DecidableEq

/-- Per-combination record built inside the `optimize` loop
(optimizer.py lines 72-78). -/
structure CombResult where
  comb : List (String × Side)
  pick_vector : List ℕ
  score_distribution : List ℚ
  target_probability : ℚ
  expected_score : ℚ
deriving DecidableEq

/-- The slice of `_generate_risk_analysis`'s dictionary that the verified
properties mention (optimizer.py lines 238-268). -/
structure RiskAnalysis where
  total_risk_score : ℚ
  strategy_confidence : ℚ
deriving DecidableEq

/-- `OptimizationResult` (optimizer.py lines 20-29), minus the fields listed
in the file header. -/
structure OptimizationResult where
  optimal_picks : List Side
  expected_score : ℚ
  score_distribution : List ℚ
  confidence_interval : ℕ × ℕ
  risk_analysis : RiskAnalysis
deriving DecidableEq

/-- `_validate_input` (optimizer.py lines 94-108): four checks in source
order, each raising `ValueError` with the quoted message. -/
def validateInput (inp : OptimizationInput) : Except String Unit :=
  if inp.odds_vector = [] then
    Except.error "Odds vector cannot be empty"
  else if ¬ (∀ p ∈ inp.odds_vector, 0 ≤ p ∧ p ≤ 1) then
    Except.error "All probabilities must be between 0 and 1"
  else if inp.odds_vector.length < inp.safe_matches.length + inp.unsafe_matches.length then
    Except.error "Total matches exceed odds vector length"
  else if ¬ (inp.total_picks = 9) then
    Except.error "Swiss format requires exactly 9 picks"
  else
    Except.ok ()

/-- `itertools.product(['team_a', 'team_b'], repeat=n)`: all length-`n`
side sequences, first position varying slowest — every `team_a`-headed
sequence before every `team_b`-headed one. -/
def sideProduct : ℕ → List (List Side)
  | 0 => [[]]
  | n + 1 =>
      ((sideProduct n).map fun rest => Side.team_a :: rest) ++
        ((sideProduct n).map fun rest => Side.team_b :: rest)

/-- `_validate_swiss_constraints` (optimizer.py lines 129-140): a stub that
accepts every combination. -/
def validateSwissConstraints (_inp : OptimizationInput) (_comb : List (String × Side)) : Bool :=
  true

/-- `_generate_unsafe_combinations` (optimizer.py lines 110-127).  A
combination `dict(zip(unsafe_matches, picks))` is modelled as the
association list `unsafe_matches.zip picks`. -/
def generateUnsafeCombinations (inp : OptimizationInput) : List (List (String × Side)) :=
  let unsafe_ms := inp.unsafe_matches
  if unsafe_ms.length = 0 then [[]]
  else
    ((sideProduct unsafe_ms.length).map fun picks => unsafe_ms.zip picks).filter
      fun comb => validateSwissConstraints inp comb

/-- `_create_pick_vector` (optimizer.py lines 142-159): index `i` runs over
`enumerate(match_ids)`; `1` encodes team A, `0` team B. -/
def createPickVector (inp : OptimizationInput) (comb : List (String × Side)) : List ℕ :=
  (List.range inp.match_ids.length).map fun i =>
    let mid := inp.match_ids.getD i ""
    if mid ∈ inp.safe_matches then
      (if 1/2 < inp.odds_vector.getD i 0 then 1 else 0)
    else
      match List.lookup mid comb with
      | some s => (if s = Side.team_a then 1 else 0)
      | none => (if 1/2 < inp.odds_vector.getD i 0 then 1 else 0)

/-- Elementwise `np.random.random(len(odds_vector)) < np.array(odds_vector)`
(optimizer.py line 167): outcome `true` means team A won match `i`. -/
def matchOutcomes (odds rands : List ℚ) : List Bool :=
  List.zipWith (fun p r => decide (r < p)) odds rands

/-- One zipped term of the correct-pick count (optimizer.py lines 170-171). -/
def pickCorrect (outcome : Bool) (pick : ℕ) : Bool :=
  (outcome && decide (pick = 1)) || (!outcome && decide (pick = 0))

/-- Score of one Monte Carlo trial: the number of correct picks
(optimizer.py lines 166-172); `zip` truncates to the shorter list exactly as
Python's `zip` does. -/
def trialScore (odds : List ℚ) (picks : List ℕ) (rands : List ℚ) : ℕ :=
  ((matchOutcomes odds rands).zip picks).countP fun op => pickCorrect op.1 op.2

/-- The fixed ten-bucket tally `score_dist` (optimizer.py lines 175-178):
bucket `b` counts the trials whose score equals `b`; scores above 9 fall in
no bucket. -/
def histogram (scores : List ℕ) : List ℕ :=
  (List.range 10).map fun b => scores.countP fun s => decide (s = b)

/-- `_monte_carlo_simulation` (optimizer.py lines 161-182).  `randss` holds
one vector of uniform draws per trial, so `randss.length` plays the role of
`num_simulations`.  The final `count / total` comprehension raises
`ZeroDivisionError` in Python when every trial scored above 9. -/
def monteCarloSimulation (odds : List ℚ) (picks : List ℕ) (randss : List (List ℚ)) :
    Except String (List ℚ) :=
  let scores := randss.map fun rands => trialScore odds picks rands
  let hist := histogram scores
  let total : ℕ := hist.sum
  if total = 0 then Except.error "ZeroDivisionError: division by zero"
  else Except.ok (hist.map fun c : ℕ => (c : ℚ) / (total : ℚ))

/-- `sum(score_dist[target:])` (optimizer.py line 69). -/
def targetProbability (dist : List ℚ) (target : ℕ) : ℚ :=
  (dist.drop target).sum

/-- `sum(i * prob for i, prob in enumerate(xs))` starting the index at `i`. -/
def weightedIdxSum : ℕ → List ℚ → ℚ
  | _, [] => 0
  | i, p :: ps => (i : ℚ) * p + weightedIdxSum (i + 1) ps

/-- `sum(i * prob for i, prob in enumerate(score_dist))` (optimizer.py
line 70, reused at line 272). -/
def expectedScore (dist : List ℚ) : ℚ :=
  weightedIdxSum 0 dist

/-- Body of the candidate-evaluation loop (optimizer.py lines 61-79) for one
combination, fed one matrix of Monte Carlo draws. -/
def computeCombResult (inp : OptimizationInput) (randss : List (List ℚ))
    (comb : List (String × Side)) : Except String CombResult :=
  let pv := createPickVector inp comb
  match monteCarloSimulation inp.odds_vector pv randss with
  | Except.error e => Except.error e
  | Except.ok dist =>
      Except.ok
        { comb := comb
          pick_vector := pv
          score_distribution := dist
          target_probability := targetProbability dist inp.target_score
          expected_score := expectedScore dist }

/-- The `for combination in unsafe_combinations` loop (optimizer.py
lines 61-79): combination number `k` consumes the draw matrix `rnd k`, and
the first raised exception aborts the whole loop. -/
def combResultsLoop (inp : OptimizationInput) (rnd : ℕ → List (List ℚ)) :
    ℕ → List (List (String × Side)) → Except String (List CombResult)
  | _, [] => Except.ok []
  | k, c :: cs =>
      match computeCombResult inp (rnd k) c with
      | Except.error e => Except.error e
      | Except.ok r =>
          match combResultsLoop inp rnd (k + 1) cs with
          | Except.error e => Except.error e
          | Except.ok rs => Except.ok (r :: rs)

/-- The evaluation loop over every enumerated combination. -/
def combResultsE (inp : OptimizationInput) (rnd : ℕ → List (List ℚ)) :
    Except String (List CombResult) :=
  combResultsLoop inp rnd 0 (generateUnsafeCombinations inp)

/-- The selection loop state `(best_combination, best_score)` of
optimizer.py lines 57-83: a new result is taken exactly when its
`target_probability` strictly exceeds the running `best_score`. -/
def selectLoop : List CombResult → Option CombResult → ℚ → Option CombResult
  | [], best, _ => best
  | r :: rs, best, bestScore =>
      if bestScore < r.target_probability then selectLoop rs (some r) r.target_probability
      else selectLoop rs best bestScore

/-- The whole selection loop, started from `best_combination = None`,
`best_score = -1` (optimizer.py lines 57-58). -/
def selectBest (results : List CombResult) : Option CombResult :=
  selectLoop results none (-1)

/-- `np.cumsum` over the score distribution (optimizer.py line 193). -/
def cumsum (l : List ℚ) : List ℚ :=
  (l.scanl (· + ·) 0).drop 1

/-- `1.0 - abs(prob - 0.5) * 2` (optimizer.py line 251). -/
def riskScore (p : ℚ) : ℚ :=
  1 - |p - 1/2| * 2

/-- `_generate_risk_analysis` (optimizer.py lines 235-276) restricted to the
fields of `RiskAnalysis`: the per-match risk sum is normalized by the number
of match ids, and `strategy_confidence` divides the winning expected score
by the constant `9.0` (line 268). -/
def generateRiskAnalysis (inp : OptimizationInput) (best : CombResult) : RiskAnalysis :=
  let idxs := (List.range inp.match_ids.length).filter fun i => i < inp.odds_vector.length
  let raw := (idxs.map fun i => riskScore (inp.odds_vector.getD i 0)).sum
  { total_risk_score := if inp.match_ids = [] then raw else raw / inp.match_ids.length
    strategy_confidence := min (best.expected_score / 9) 1 }

/-- The per-match branch of the `optimal_picks` loop in `_create_result`
(optimizer.py lines 212-223); `idx` is `match_ids.index(match_id)` as in the
source (first occurrence). -/
def pickForMatch (inp : OptimizationInput) (best : CombResult) (mid : String) : Side :=
  if mid ∈ inp.safe_matches then
    (if 1/2 < inp.odds_vector.getD (inp.match_ids.indexOf mid) 0 then Side.team_a
     else Side.team_b)
  else
    match List.lookup mid best.comb with
    | some s => s
    | none =>
        (if 1/2 < inp.odds_vector.getD (inp.match_ids.indexOf mid) 0 then Side.team_a
         else Side.team_b)

/-- `_create_result` (optimizer.py lines 184-233) restricted to the modelled
fields.  The 95% interval indices are the first cumulative masses reaching
`0.025` and `0.975`; `next(...)` always finds one because the distribution
the simulator returns sums to 1. -/
def createResult (inp : OptimizationInput) (best : CombResult) : OptimizationResult :=
  let cum := cumsum best.score_distribution
  { optimal_picks := inp.match_ids.map fun mid => pickForMatch inp best mid
    expected_score := best.expected_score
    score_distribution := best.score_distribution
    confidence_interval :=
      (cum.findIdx fun c => decide (1/40 ≤ c), cum.findIdx fun c => decide (39/40 ≤ c))
    risk_analysis := generateRiskAnalysis inp best }

/-- `PickEmOptimizer.optimize` (optimizer.py lines 37-92): validate,
enumerate, evaluate every combination, select the best, build the result.
The `None` check on `best_combination` lives in `_create_result`
(line 188-189) and surfaces here as the `none` branch. -/
def optimize (inp : OptimizationInput) (rnd : ℕ → List (List ℚ)) :
    Except String OptimizationResult :=
  match validateInput inp with
  | Except.error e => Except.error e
  | Except.ok _ =>
      match combResultsE inp rnd with
      | Except.error e => Except.error e
      | Except.ok results =>
          match selectBest results with
          | none => Except.error "No valid combinations found"
          | some best => Except.ok (createResult inp best)

/-- One odds observation (`OddsData` in odds_ingestion.py): the two
probabilities and their source label. -/
structure OddsData where
  match_id : String
  source_name : String
  team_a : String
  team_b : String
  team_a_odds : ℚ
  team_b_odds : ℚ
deriving DecidableEq

/-- The weight table of `_classify_single_match` (odds_ingestion.py
lines 365-371) together with the `.get(source, 0.1)` fallback. -/
def sourceWeight (s : String) : ℚ :=
  if s = "bookmaker_consensus" then 2/5
  else if s = "hltv_elo" then 3/10
  else if s = "community_picks" then 1/5
  else if s = "mock_data" then 1/10
  else 1/10

/-- The slice of `_classify_single_match`'s result dictionary that the
verified properties mention.  The `source_agreement` key is omitted: its
mode computation iterates a Python set in unspecified order. -/
structure MatchClassification where
  is_safe : Bool
  confidence : ℚ
  implied_win_rate : ℚ
  consensus_team_a_prob : ℚ
  consensus_team_b_prob : ℚ
  sources_count : ℕ
deriving DecidableEq

/-- `_classify_single_match` (odds_ingestion.py lines 352-428).  In the
empty-input branch the source's dictionary has no consensus keys; the model
fills them with the degenerate `1/2`.  `confidence` is
`min(implied_win_rate, 1 - implied_win_rate) * 2` (line 415). -/
def classifySingleMatch (safe_threshold : ℚ) (match_odds : List OddsData) :
    MatchClassification :=
  if match_odds = [] then
    { is_safe := false
      confidence := 0
      implied_win_rate := 1/2
      consensus_team_a_prob := 1/2
      consensus_team_b_prob := 1/2
      sources_count := 0 }
  else
    let weighted_a := (match_odds.map fun o => o.team_a_odds * sourceWeight o.source_name).sum
    let weighted_b := (match_odds.map fun o => o.team_b_odds * sourceWeight o.source_name).sum
    let total_weight := (match_odds.map fun o => sourceWeight o.source_name).sum
    let consensus_a := if 0 < total_weight then weighted_a / total_weight else 1/2
    let consensus_b := if 0 < total_weight then weighted_b / total_weight else 1/2
    let implied := if consensus_b < consensus_a then consensus_a else consensus_b
    { is_safe := safe_threshold ≤ implied
      confidence := min implied (1 - implied) * 2
      implied_win_rate := implied
      consensus_team_a_prob := consensus_a
      consensus_team_b_prob := consensus_b
      sources_count := match_odds.length }

/-! ## Concrete instances used by the verification -/

/-- One unsafe coin-toss slate whose two candidate pick sets tie on
`target_probability` (target score 0) while differing on `expected_score`:
team A of `m1` has win probability 0, so picking team B is always right. -/
def tieInput : OptimizationInput :=
  { odds_vector := [0], safe_matches := [], unsafe_matches := ["m1"],
    total_picks := 9, target_score := 0, match_ids := ["m1"] }

/-- One Monte Carlo trial per candidate, draw `1/2` for the single match. -/
def tieRnd : ℕ → List (List ℚ) := fun _ => [[1/2]]

/-- The result `optimize tieInput tieRnd` actually returns: the
first-enumerated candidate (team A) wins the tie despite its lower
expected score. -/
def tieResult : OptimizationResult :=
  { optimal_picks := [Side.team_a], expected_score := 0,
    score_distribution := [1, 0, 0, 0, 0, 0, 0, 0, 0, 0],
    confidence_interval := (0, 0),
    risk_analysis := { total_risk_score := 0, strategy_confidence := 0 } }

/-- An input whose validation fails on the empty odds vector. -/
def emptyOddsInput : OptimizationInput :=
  { odds_vector := [], safe_matches := [], unsafe_matches := [],
    total_picks := 9, target_score := 5, match_ids := [] }

/-- A slate with 21 unsafe matches — above the enumeration ceiling of 20
that the specification postulates. -/
def ceilingInput : OptimizationInput :=
  { odds_vector := List.replicate 21 (1/2), safe_matches := [],
    unsafe_matches := (List.range 21).map toString, total_picks := 9,
    target_score := 5, match_ids := (List.range 21).map toString }

/-- A single safe match at probability exactly `1/2`. -/
def halfInput : OptimizationInput :=
  { odds_vector := [1/2], safe_matches := ["m1"], unsafe_matches := [],
    total_picks := 9, target_score := 5, match_ids := ["m1"] }

/-- One Monte Carlo trial, draw 0 for the single match. -/
def halfRnd : ℕ → List (List ℚ) := fun _ => [[0]]

/-- A placeholder candidate record for theorems about `pickForMatch`, whose
safe-match branch never reads the candidate. -/
def dummyCand : CombResult :=
  { comb := [], pick_vector := [], score_distribution := [],
    target_probability := 0, expected_score := 0 }

/-- A three-match slate of certainties, slate length 3 ≠ 9. -/
def threeInput : OptimizationInput :=
  { odds_vector := [1, 1, 1], safe_matches := ["a", "b", "c"], unsafe_matches := [],
    total_picks := 9, target_score := 0, match_ids := ["a", "b", "c"] }

/-- One Monte Carlo trial, draws 0 for all three matches. -/
def threeRnd : ℕ → List (List ℚ) := fun _ => [[0, 0, 0]]

/-- The result `optimize threeInput threeRnd` actually returns. -/
def threeResult : OptimizationResult :=
  { optimal_picks := [Side.team_a, Side.team_a, Side.team_a], expected_score := 3,
    score_distribution := [0, 0, 0, 1, 0, 0, 0, 0, 0, 0],
    confidence_interval := (3, 3),
    risk_analysis := { total_risk_score := 0, strategy_confidence := 1/3 } }

/-- A 50/50 observation from an unweighted source. -/
def fiftyFiftyObs : OddsData :=
  { match_id := "m1", source_name := "mock_data", team_a := "TeamA", team_b := "TeamB",
    team_a_odds := 1/2, team_b_odds := 1/2 }

/-- A 90/10 observation from an unweighted source. -/
def nearCertainObs : OddsData :=
  { match_id := "m2", source_name := "mock_data", team_a := "TeamA", team_b := "TeamB",
    team_a_odds := 9/10, team_b_odds := 1/10 }

/-! ## Helper lemmas -/

/-- The two sides are distinct. -/
@[simp] theorem team_a_ne_team_b : Side.team_a ≠ Side.team_b := by
  intro h; cases h

/-- The two sides are distinct. -/
@[simp] theorem team_b_ne_team_a : Side.team_b ≠ Side.team_a := by
  intro h; cases h

/-- `itertools.product` over a 2-element set yields `2 ^ n` tuples. -/
theorem sideProduct_length (n : ℕ) : (sideProduct n).length = 2 ^ n := by
  induction n with
  | zero => rfl
  | succ n ih =>
      rw [sideProduct]
      rw [List.length_append, List.length_map, List.length_map, ih, pow_succ]
      omega

/-- Every tuple produced by `sideProduct n` has length `n`. -/
theorem length_of_mem_sideProduct {n : ℕ} {l : List Side} (h : l ∈ sideProduct n) :
    l.length = n := by
  induction n generalizing l with
  | zero => rw [sideProduct] at h; simp at h; simp [h]
  | succ n ih =>
      rw [sideProduct] at h
      rcases List.mem_append.mp h with h' | h' <;>
        · rcases List.mem_map.mp h' with ⟨rest, hrest, hcons⟩
          subst hcons
          simp [ih hrest]

/-- `sideProduct n` has no duplicate tuples. -/
theorem sideProduct_nodup (n : ℕ) : (sideProduct n).Nodup := by
  induction n with
  | zero => simp [sideProduct]
  | succ n ih =>
      rw [sideProduct]
      refine List.Nodup.append ?_ ?_ ?_
      · exact ih.map fun a b h => by injection h
      · exact ih.map fun a b h => by injection h
      · intro l hl hl'
        rcases List.mem_map.mp hl with ⟨a, _, ha⟩
        rcases List.mem_map.mp hl' with ⟨b, _, hb⟩
        rw [← ha] at hb
        injection hb with hb
        exact team_b_ne_team_a hb

/-- The constraint stub accepts everything, so the filter in
`_generate_unsafe_combinations` is the identity. -/
theorem generateUnsafeCombinations_eq (inp : OptimizationInput) :
    generateUnsafeCombinations inp =
      if inp.unsafe_matches.length = 0 then [[]]
      else (sideProduct inp.unsafe_matches.length).map fun picks =>
        inp.unsafe_matches.zip picks := by
  rw [generateUnsafeCombinations]
  split
  · rfl
  · simp [validateSwissConstraints]

/-- The enumerator yields `2 ^ U` combinations for every input, whatever
`U` is. -/
theorem generateUnsafeCombinations_length (inp : OptimizationInput) :
    (generateUnsafeCombinations inp).length = 2 ^ inp.unsafe_matches.length := by
  rw [generateUnsafeCombinations_eq]
  split
  · rename_i h
    rw [h]
    rfl
  · rw [List.length_map, sideProduct_length]

/-- Every enumerated combination binds exactly the unsafe match ids, in
their enumeration order. -/
theorem generateUnsafeCombinations_keys (inp : OptimizationInput) :
    ∀ c ∈ generateUnsafeCombinations inp, c.map Prod.fst = inp.unsafe_matches := by
  rw [generateUnsafeCombinations_eq]
  split
  · rename_i h
    intro c hc
    rw [List.length_eq_zero] at h
    simp at hc
    simp [hc, h]
  · intro c hc
    rcases List.mem_map.mp hc with ⟨picks, hp, hzip⟩
    subst hzip
    exact List.map_fst_zip _ _ (le_of_eq (length_of_mem_sideProduct hp).symm)

/-- Distinct side tuples give distinct association lists. -/
theorem generateUnsafeCombinations_nodup (inp : OptimizationInput) :
    (generateUnsafeCombinations inp).Nodup := by
  rw [generateUnsafeCombinations_eq]
  split
  · simp
  · refine List.Nodup.map_on ?_ (sideProduct_nodup _)
    intro x hx y hy hxy
    have hxlen : x.length = inp.unsafe_matches.length := length_of_mem_sideProduct hx
    have hylen : y.length = inp.unsafe_matches.length := length_of_mem_sideProduct hy
    calc x = (inp.unsafe_matches.zip x).map Prod.snd :=
            (List.map_snd_zip _ _ (le_of_eq hxlen)).symm
    _ = (inp.unsafe_matches.zip y).map Prod.snd := by rw [hxy]
    _ = y := List.map_snd_zip _ _ (le_of_eq hylen)

/-! ## C3 -/

/-- C3: for a set of `U` unsafe match identifiers, the enumerator yields
exactly `2 ^ U` distinct combinations, each binding exactly one side to
every unsafe match with no omissions; for `U = 0` this is the single empty
combination. -/
theorem C3_enumerator_complete (inp : OptimizationInput)
    (_hset : inp.unsafe_matches.Nodup) :
    (generateUnsafeCombinations inp).length = 2 ^ inp.unsafe_matches.length ∧
    (generateUnsafeCombinations inp).Nodup ∧
    ∀ c ∈ generateUnsafeCombinations inp, c.map Prod.fst = inp.unsafe_matches :=
  ⟨generateUnsafeCombinations_length inp, generateUnsafeCombinations_nodup inp,
    generateUnsafeCombinations_keys inp⟩

/-- C3 witness: the theorem instantiated on a 2-element unsafe set. -/
theorem C3_enumerator_complete_witness :
    (generateUnsafeCombinations
        { odds_vector := [1/2, 1/2], safe_matches := [], unsafe_matches := ["a", "b"],
          total_picks := 9, target_score := 5, match_ids := ["a", "b"] }).length = 2 ^ 2 ∧
    (generateUnsafeCombinations
        { odds_vector := [1/2, 1/2], safe_matches := [], unsafe_matches := ["a", "b"],
          total_picks := 9, target_score := 5, match_ids := ["a", "b"] }).Nodup ∧
    ∀ c ∈ generateUnsafeCombinations
        { odds_vector := [1/2, 1/2], safe_matches := [], unsafe_matches := ["a", "b"],
          total_picks := 9, target_score := 5, match_ids := ["a", "b"] },
      c.map Prod.fst = ["a", "b"] :=
  C3_enumerator_complete _ (by simp)

/-! ## C5 -/

/-- C5 (amended): the engine has no enumeration ceiling — for every input,
whatever its unsafe-match count `U`, `_generate_unsafe_combinations`
enumerates all `2 ^ U` combinations instead of rejecting large `U` with an
`ExcessiveSearchSpace` error. -/
theorem C5_no_enumeration_ceiling (inp : OptimizationInput) :
    (generateUnsafeCombinations inp).length = 2 ^ inp.unsafe_matches.length :=
  generateUnsafeCombinations_length inp

/-- C5 counterexample: a request with `U = 21 > 20` unsafe matches is not
rejected; the enumerator produces all `2 ^ 21` combinations. -/
theorem C5_counterexample :
    20 < ceilingInput.unsafe_matches.length ∧
    (generateUnsafeCombinations ceilingInput).length = 2 ^ 21 := by
  constructor
  · simp [ceilingInput]
  · rw [generateUnsafeCombinations_length]
    simp [ceilingInput]

/-- The selection loop keeps its running best unless some element strictly
beats the running score; the element it settles on is the first one
attaining the maximum. -/
theorem selectLoop_spec (rs : List CombResult) :
    ∀ (b : Option CombResult) (s : ℚ),
      (selectLoop rs b s = b ∧ ∀ x ∈ rs, x.target_probability ≤ s) ∨
      ∃ l₁ r l₂, rs = l₁ ++ r :: l₂ ∧ selectLoop rs b s = some r ∧
        s < r.target_probability ∧
        (∀ x ∈ l₁, x.target_probability < r.target_probability) ∧
        (∀ x ∈ l₂, x.target_probability ≤ r.target_probability) := by
  induction rs with
  | nil => intro b s; left; exact ⟨rfl, by simp⟩
  | cons hd tl ih =>
      intro b s
      rw [selectLoop]
      by_cases hlt : s < hd.target_probability
      · rw [if_pos hlt]
        rcases ih (some hd) hd.target_probability with ⟨heq, hall⟩ | ⟨l₁, r, l₂, hsplit, heq, hs, hbef, haft⟩
        · right
          exact ⟨[], hd, tl, rfl, heq, hlt, by simp, hall⟩
        · right
          refine ⟨hd :: l₁, r, l₂, by rw [hsplit]; rfl, heq, lt_trans hlt hs, ?_, haft⟩
          intro x hx
          rcases List.mem_cons.mp hx with hx | hx
          · rw [hx]; exact hs
          · exact hbef x hx
      · rw [if_neg hlt]
        push_neg at hlt
        rcases ih b s with ⟨heq, hall⟩ | ⟨l₁, r, l₂, hsplit, heq, hs, hbef, haft⟩
        · left
          refine ⟨heq, ?_⟩
          intro x hx
          rcases List.mem_cons.mp hx with hx | hx
          · rw [hx]; exact hlt
          · exact hall x hx
        · right
          refine ⟨hd :: l₁, r, l₂, by rw [hsplit]; rfl, heq, hs, ?_, haft⟩
          intro x hx
          rcases List.mem_cons.mp hx with hx | hx
          · rw [hx]; exact lt_of_le_of_lt hlt hs
          · exact hbef x hx

/-- `selectBest` returns the first result attaining the maximal
`target_probability`; `expected_score` plays no role. -/
theorem selectBest_first_max (results : List CombResult) (r : CombResult)
    (h : selectBest results = some r) :
    (∀ x ∈ results, x.target_probability ≤ r.target_probability) ∧
    ∃ l₁ l₂, results = l₁ ++ r :: l₂ ∧
      ∀ x ∈ l₁, x.target_probability < r.target_probability := by
  rcases selectLoop_spec results none (-1) with ⟨heq, _⟩ | ⟨l₁, r', l₂, hsplit, heq, _, hbef, haft⟩
  · rw [selectBest] at h
    rw [heq] at h
    cases h
  · rw [selectBest] at h
    rw [heq] at h
    injection h with h
    subst h
    constructor
    · intro x hx
      rw [hsplit] at hx
      rcases List.mem_append.mp hx with hx | hx
      · exact le_of_lt (hbef x hx)
      · rcases List.mem_cons.mp hx with hx | hx
        · rw [hx]
        · exact haft x hx
    · exact ⟨l₁, l₂, hsplit, hbef⟩

/-! ## C1 -/

/-- C1 (amended): `optimize` selects as winner the first-enumerated
candidate whose `target_probability` is maximal; a tie on
`target_probability` always goes to the earlier-enumerated candidate, and
`expected_score` is never consulted. -/
theorem C1_first_enumerated_max_wins (inp : OptimizationInput)
    (rnd : ℕ → List (List ℚ)) (res : OptimizationResult)
    (h : optimize inp rnd = Except.ok res) :
    ∃ results best,
      combResultsE inp rnd = Except.ok results ∧
      selectBest results = some best ∧
      res = createResult inp best ∧
      (∀ x ∈ results, x.target_probability ≤ best.target_probability) ∧
      ∃ l₁ l₂, results = l₁ ++ best :: l₂ ∧
        ∀ x ∈ l₁, x.target_probability < best.target_probability := by
  cases hv : validateInput inp with
  | error e => simp only [optimize, hv] at h; exact Except.noConfusion h
  | ok u =>
      cases hc : combResultsE inp rnd with
      | error e => simp only [optimize, hv, hc] at h; exact Except.noConfusion h
      | ok results =>
          cases hs : selectBest results with
          | none => simp only [optimize, hv, hc, hs] at h; exact Except.noConfusion h
          | some best =>
              simp only [optimize, hv, hc, hs] at h
              injection h with h
              subst h
              obtain ⟨hmax, l₁, l₂, hsplit, hbef⟩ := selectBest_first_max results best hs
              exact ⟨results, best, rfl, hs, rfl, hmax, l₁, l₂, hsplit, hbef⟩

/-- C1 witness: the theorem instantiated on the concrete tie run
`optimize tieInput tieRnd`. -/
theorem C1_first_enumerated_max_wins_witness :
    ∃ results best,
      combResultsE tieInput tieRnd = Except.ok results ∧
      selectBest results = some best ∧
      tieResult = createResult tieInput best ∧
      (∀ x ∈ results, x.target_probability ≤ best.target_probability) ∧
      ∃ l₁ l₂, results = l₁ ++ best :: l₂ ∧
        ∀ x ∈ l₁, x.target_probability < best.target_probability :=
  C1_first_enumerated_max_wins tieInput tieRnd tieResult (by
    norm_num [optimize, validateInput, combResultsE, combResultsLoop, computeCombResult,
      generateUnsafeCombinations, sideProduct, validateSwissConstraints, createPickVector,
      tieInput, tieRnd, tieResult, monteCarloSimulation, histogram, trialScore,
      matchOutcomes, pickCorrect, targetProbability, expectedScore, weightedIdxSum,
      selectBest, selectLoop, createResult, pickForMatch, generateRiskAnalysis, riskScore,
      cumsum, List.range_succ, List.countP_cons, List.countP_nil, Function.comp,
      List.lookup, Except.map, List.findIdx_cons, Bool.cond_decide, abs])

/-- C1 counterexample: on `tieInput` both candidates reach
`target_probability` 1, the second (team B) has the higher expected score
1 > 0, yet `optimize` selects the first-enumerated candidate, team A —
refuting the claimed `expected_score` tie-break. -/
theorem C1_counterexample :
    (combResultsE tieInput tieRnd).map (List.map CombResult.target_probability)
      = Except.ok [1, 1] ∧
    (combResultsE tieInput tieRnd).map (List.map CombResult.expected_score)
      = Except.ok [0, 1] ∧
    (optimize tieInput tieRnd).map OptimizationResult.optimal_picks
      = Except.ok [Side.team_a] := by
  refine ⟨?_, ?_, ?_⟩ <;>
    norm_num [optimize, validateInput, combResultsE, combResultsLoop, computeCombResult,
      generateUnsafeCombinations, sideProduct, validateSwissConstraints, createPickVector,
      tieInput, tieRnd, monteCarloSimulation, histogram, trialScore,
      matchOutcomes, pickCorrect, targetProbability, expectedScore, weightedIdxSum,
      selectBest, selectLoop, createResult, pickForMatch, generateRiskAnalysis, riskScore,
      cumsum, List.range_succ, List.countP_cons, List.countP_nil, Function.comp,
      List.lookup, Except.map, List.findIdx_cons, Bool.cond_decide]

/-! ## C4 -/

/-- A validation failure short-circuits `optimize` before any simulation:
the returned error is independent of the random source. -/
theorem optimize_error_of_validate (inp : OptimizationInput) (msg : String)
    (h : validateInput inp = Except.error msg) :
    ∀ rnd, optimize inp rnd = Except.error msg := by
  intro rnd
  simp only [optimize, h]

/-- C4: whenever the odds vector is empty, some probability falls outside
`[0, 1]`, or the safe and unsafe counts together exceed the slate length,
`optimize` fails with a validation error whose message does not depend on
the simulation randomness — so no simulation output and no partial result
is ever produced. -/
theorem C4_validation_rejects (inp : OptimizationInput)
    (h : inp.odds_vector = [] ∨
      (∃ p ∈ inp.odds_vector, p < 0 ∨ 1 < p) ∨
      inp.odds_vector.length < inp.safe_matches.length + inp.unsafe_matches.length) :
    ∃ msg, ∀ rnd, optimize inp rnd = Except.error msg := by
  have hval : ∃ msg, validateInput inp = Except.error msg := by
    by_cases h1 : inp.odds_vector = []
    · exact ⟨_, by rw [validateInput, if_pos h1]⟩
    · by_cases h2 : ∀ p ∈ inp.odds_vector, 0 ≤ p ∧ p ≤ 1
      · have h3 : inp.odds_vector.length <
            inp.safe_matches.length + inp.unsafe_matches.length := by
          rcases h with h | ⟨p, hp, hout⟩ | h
          · exact absurd h h1
          · rcases h2 p hp with ⟨hlo, hhi⟩
            rcases hout with hout | hout
            · exact absurd hlo (not_le.mpr hout)
            · exact absurd hhi (not_le.mpr hout)
          · exact h
        exact ⟨_, by rw [validateInput, if_neg h1, if_neg (not_not_intro h2), if_pos h3]⟩
      · exact ⟨_, by rw [validateInput, if_neg h1, if_pos h2]⟩
  rcases hval with ⟨msg, hmsg⟩
  exact ⟨msg, optimize_error_of_validate inp msg hmsg⟩

/-- C4 witness: the theorem instantiated on the empty-odds input. -/
theorem C4_validation_rejects_witness :
    ∃ msg, ∀ rnd, optimize emptyOddsInput rnd = Except.error msg :=
  C4_validation_rejects emptyOddsInput (Or.inl rfl)

/-- Reading entry `i < n` of a map over `List.range n`. -/
theorem getD_map_range {α : Type} (f : ℕ → α) {n i : ℕ} (d : α) (h : i < n) :
    ((List.range n).map f).getD i d = f i := by
  rw [List.getD_eq_getElem?_getD]
  simp [List.getElem?_map, List.getElem?_range h]

/-! ## C6 -/

/-- C6 (amended): for a safe match the pick is the side with win
probability strictly greater than `0.5`; at probability exactly `0.5` the
strict comparison fails and both `_create_pick_vector` and `_create_result`
default to side B (`team_b`), not side A. -/
theorem C6_safe_pick_halves_to_team_b (inp : OptimizationInput)
    (comb : List (String × Side)) (best : CombResult) (mid : String) (i : ℕ)
    (hi : i < inp.match_ids.length)
    (hmid : inp.match_ids.getD i "" = mid)
    (hidx : inp.match_ids.indexOf mid = i)
    (hsafe : mid ∈ inp.safe_matches) :
    (createPickVector inp comb).getD i 2 =
      (if 1/2 < inp.odds_vector.getD i 0 then 1 else 0) ∧
    pickForMatch inp best mid =
      (if 1/2 < inp.odds_vector.getD i 0 then Side.team_a else Side.team_b) ∧
    (inp.odds_vector.getD i 0 = 1/2 →
      (createPickVector inp comb).getD i 2 = 0 ∧
      pickForMatch inp best mid = Side.team_b) := by
  have hpv : (createPickVector inp comb).getD i 2 =
      (if 1/2 < inp.odds_vector.getD i 0 then 1 else 0) := by
    rw [createPickVector, getD_map_range _ 2 hi]
    simp only [hmid, if_pos hsafe]
  have hpf : pickForMatch inp best mid =
      (if 1/2 < inp.odds_vector.getD i 0 then Side.team_a else Side.team_b) := by
    rw [pickForMatch, if_pos hsafe, hidx]
  refine ⟨hpv, hpf, ?_⟩
  intro hhalf
  rw [hpv, hpf, hhalf]
  norm_num

/-- C6 witness: the theorem instantiated on the single-match slate at
probability exactly `1/2`. -/
theorem C6_safe_pick_halves_to_team_b_witness :
    (createPickVector halfInput []).getD 0 2 =
      (if 1/2 < halfInput.odds_vector.getD 0 0 then 1 else 0) ∧
    pickForMatch halfInput dummyCand "m1" =
      (if 1/2 < halfInput.odds_vector.getD 0 0 then Side.team_a else Side.team_b) ∧
    (halfInput.odds_vector.getD 0 0 = 1/2 →
      (createPickVector halfInput []).getD 0 2 = 0 ∧
      pickForMatch halfInput dummyCand "m1" = Side.team_b) :=
  C6_safe_pick_halves_to_team_b halfInput [] dummyCand "m1" 0 (by simp [halfInput])
    (by simp [halfInput]) (by simp [halfInput]) (by simp [halfInput])

/-- C6 counterexample: the full run on a safe match with probability
exactly `1/2` picks `team_b`, refuting the claimed default to side A. -/
theorem C6_counterexample :
    halfInput.odds_vector = [1/2] ∧
    "m1" ∈ halfInput.safe_matches ∧
    (optimize halfInput halfRnd).map OptimizationResult.optimal_picks
      = Except.ok [Side.team_b] := by
  refine ⟨rfl, by simp [halfInput], ?_⟩
  norm_num [optimize, validateInput, combResultsE, combResultsLoop, computeCombResult,
    generateUnsafeCombinations, sideProduct, validateSwissConstraints, createPickVector,
    halfInput, halfRnd, monteCarloSimulation, histogram, trialScore,
    matchOutcomes, pickCorrect, targetProbability, expectedScore, weightedIdxSum,
    selectBest, selectLoop, createResult, pickForMatch, generateRiskAnalysis, riskScore,
    cumsum, List.range_succ, List.countP_cons, List.countP_nil, Function.comp,
    List.lookup, Except.map, List.findIdx_cons, Bool.cond_decide]

/-! ## C7 -/

/-- C7 (amended): in every successful optimization result,
`strategy_confidence` equals `min(expected_score / 9, 1)` with the constant
divisor `9.0` hard-coded in `_generate_risk_analysis` — not the actual
slate length. -/
theorem C7_confidence_divides_by_nine (inp : OptimizationInput)
    (rnd : ℕ → List (List ℚ)) (res : OptimizationResult)
    (h : optimize inp rnd = Except.ok res) :
    res.risk_analysis.strategy_confidence = min (res.expected_score / 9) 1 := by
  cases hv : validateInput inp with
  | error e => simp only [optimize, hv] at h; exact Except.noConfusion h
  | ok u =>
      cases hc : combResultsE inp rnd with
      | error e => simp only [optimize, hv, hc] at h; exact Except.noConfusion h
      | ok results =>
          cases hs : selectBest results with
          | none => simp only [optimize, hv, hc, hs] at h; exact Except.noConfusion h
          | some best =>
              simp only [optimize, hv, hc, hs] at h
              injection h with h
              subst h
              rfl

/-- C7 witness: the theorem instantiated on the three-match run, where the
confidence is `min(3/9, 1) = 1/3`. -/
theorem C7_confidence_divides_by_nine_witness :
    threeResult.risk_analysis.strategy_confidence = min (threeResult.expected_score / 9) 1 :=
  C7_confidence_divides_by_nine threeInput threeRnd threeResult (by
    have hval : validateInput threeInput = Except.ok () := rfl
    simp only [threeInput] at hval
    have ha : List.indexOf "a" ["a", "b", "c"] = 0 := rfl
    have hb : List.indexOf "b" ["a", "b", "c"] = 1 := rfl
    have hc : List.indexOf "c" ["a", "b", "c"] = 2 := rfl
    norm_num [optimize, hval, ha, hb, hc, combResultsE, combResultsLoop, computeCombResult,
      generateUnsafeCombinations, sideProduct, validateSwissConstraints, createPickVector,
      threeInput, threeRnd, threeResult, monteCarloSimulation, histogram, trialScore,
      matchOutcomes, pickCorrect, targetProbability, expectedScore, weightedIdxSum,
      selectBest, selectLoop, createResult, pickForMatch, generateRiskAnalysis, riskScore,
      cumsum, List.range_succ, List.countP_cons, List.countP_nil, Function.comp,
      List.lookup, Except.map, List.findIdx_cons, Bool.cond_decide, abs])

/-- C7 counterexample: the slate has `N = 3` matches and the winner's
expected score is 3, so the claim demands confidence
`min(3/3, 1) = 1`, but the result carries `min(3/9, 1) = 1/3`. -/
theorem C7_counterexample :
    threeInput.match_ids.length = 3 ∧
    (optimize threeInput threeRnd).map
        (fun r => (r.risk_analysis.strategy_confidence, r.expected_score))
      = Except.ok (1/3, 3) ∧
    min ((3 : ℚ) / 3) 1 = 1 ∧ ((1 : ℚ) / 3) ≠ 1 := by
  refine ⟨rfl, ?_, by norm_num, by norm_num⟩
  have hval : validateInput threeInput = Except.ok () := rfl
  simp only [threeInput] at hval
  have ha : List.indexOf "a" ["a", "b", "c"] = 0 := rfl
  have hb : List.indexOf "b" ["a", "b", "c"] = 1 := rfl
  have hc : List.indexOf "c" ["a", "b", "c"] = 2 := rfl
  norm_num [optimize, hval, ha, hb, hc, combResultsE, combResultsLoop, computeCombResult,
    generateUnsafeCombinations, sideProduct, validateSwissConstraints, createPickVector,
    threeInput, threeRnd, monteCarloSimulation, histogram, trialScore,
    matchOutcomes, pickCorrect, targetProbability, expectedScore, weightedIdxSum,
    selectBest, selectLoop, createResult, pickForMatch, generateRiskAnalysis, riskScore,
    cumsum, List.range_succ, List.countP_cons, List.countP_nil, Function.comp,
    List.lookup, Except.map, List.findIdx_cons, Bool.cond_decide, abs]

/-- Dividing every entry by a common constant divides the sum. -/
theorem sum_map_natCast_div (l : List ℕ) (c : ℚ) :
    (l.map fun x : ℕ => (x : ℚ) / c).sum = (l.sum : ℚ) / c := by
  induction l with
  | nil => simp
  | cons x xs ih => rw [List.map_cons, List.sum_cons, List.sum_cons, ih, Nat.cast_add, add_div]

/-- The tally always has exactly ten buckets. -/
theorem histogram_length (scores : List ℕ) : (histogram scores).length = 10 := by
  rw [histogram, List.length_map, List.length_range]

/-! ## C2 -/

/-- C2 (amended): the simulator's output is a fixed ten-bucket distribution
over scores 0..9 — not `N + 1` buckets — and as long as at least one trial
scores at most 9 the call succeeds and the entries sum to exactly 1. -/
theorem C2_ten_bucket_distribution (odds : List ℚ) (picks : List ℕ)
    (randss : List (List ℚ)) (h : ∃ t ∈ randss, trialScore odds picks t ≤ 9) :
    ∃ d, monteCarloSimulation odds picks randss = Except.ok d ∧
      d.length = 10 ∧ d.sum = 1 := by
  obtain ⟨t, ht, hle⟩ := h
  have hmem : trialScore odds picks t ∈ randss.map fun rands => trialScore odds picks rands :=
    List.mem_map_of_mem _ ht
  have hcount : 0 < (randss.map fun rands => trialScore odds picks rands).countP
      fun s => decide (s = trialScore odds picks t) :=
    List.countP_pos_iff.mpr ⟨_, hmem, by simp⟩
  have hbucket : ((randss.map fun rands => trialScore odds picks rands).countP
      fun s => decide (s = trialScore odds picks t)) ∈
        histogram (randss.map fun rands => trialScore odds picks rands) := by
    rw [histogram]
    exact List.mem_map_of_mem _ (List.mem_range.mpr (by omega))
  have hsum : 0 < (histogram (randss.map fun rands => trialScore odds picks rands)).sum :=
    lt_of_lt_of_le hcount (List.single_le_sum (fun x _ => Nat.zero_le x) _ hbucket)
  refine ⟨(histogram (randss.map fun rands => trialScore odds picks rands)).map
      fun c : ℕ => (c : ℚ) /
        (((histogram (randss.map fun rands => trialScore odds picks rands)).sum : ℕ) : ℚ),
    ?_, ?_, ?_⟩
  · simp only [monteCarloSimulation]
    rw [if_neg (by omega)]
  · rw [List.length_map, histogram_length]
  · rw [sum_map_natCast_div, div_self]
    exact Nat.cast_ne_zero.mpr (by omega)

/-- C2 witness: the theorem instantiated on a one-match slate with one
trial. -/
theorem C2_ten_bucket_distribution_witness :
    ∃ d, monteCarloSimulation [1] [1] [[0]] = Except.ok d ∧
      d.length = 10 ∧ d.sum = 1 :=
  C2_ten_bucket_distribution [1] [1] [[0]] ⟨[0], by simp, by decide⟩

/-- C2 counterexample: for `N = 1` the returned distribution has 10
entries, not `N + 1 = 2`. -/
theorem C2_counterexample :
    (monteCarloSimulation [1] [1] [[0]]).map List.length = Except.ok 10 ∧
    (10 : ℕ) ≠ 1 + 1 :=
  ⟨rfl, by decide⟩

/-! ## C10 -/

/-- C10: the simulator tallies into the fixed ten buckets 0..9, silently
dropping every larger score, and normalizes without a zero guard — so
whenever every trial scores above 9 the division's denominator is 0 and the
call fails instead of returning a distribution. -/
theorem C10_unguarded_normalization (odds : List ℚ) (picks : List ℕ)
    (randss : List (List ℚ)) (h : ∀ t ∈ randss, 9 < trialScore odds picks t) :
    monteCarloSimulation odds picks randss =
      Except.error "ZeroDivisionError: division by zero" := by
  have hz : (histogram (randss.map fun rands => trialScore odds picks rands)).sum = 0 := by
    rw [histogram]
    apply List.sum_eq_zero
    intro x hx
    rcases List.mem_map.mp hx with ⟨b, hb, rfl⟩
    rw [List.countP_eq_zero]
    intro s hs
    rcases List.mem_map.mp hs with ⟨t, ht, rfl⟩
    have h1 := h t ht
    have h2 := List.mem_range.mp hb
    simp only [decide_eq_true_eq]
    omega
  simp only [monteCarloSimulation]
  rw [if_pos hz]

/-- C10 witness: ten certainly-correct picks make every trial score 10,
reproducing the failure. -/
theorem C10_unguarded_normalization_witness :
    (∀ t ∈ [List.replicate 10 (0 : ℚ)],
      9 < trialScore (List.replicate 10 (1 : ℚ)) (List.replicate 10 1) t) ∧
    monteCarloSimulation (List.replicate 10 (1 : ℚ)) (List.replicate 10 1)
        [List.replicate 10 (0 : ℚ)] =
      Except.error "ZeroDivisionError: division by zero" :=
  ⟨by decide, C10_unguarded_normalization _ _ _ (by decide)⟩

/-! ## C9 helpers -/

/-- When every pick is backed by a certain outcome and every draw lies in
`[0, 1)`, a trial scores the full slate. -/
theorem trialScore_all_correct :
    ∀ (odds : List ℚ) (picks : List ℕ) (rands : List ℚ),
      picks.length = odds.length → rands.length = odds.length →
      (∀ pr ∈ odds.zip picks, (pr.2 = 1 ∧ pr.1 = 1) ∨ (pr.2 = 0 ∧ pr.1 = 0)) →
      (∀ r ∈ rands, 0 ≤ r ∧ r < 1) →
      trialScore odds picks rands = odds.length := by
  intro odds
  induction odds with
  | nil => intro picks rands _ _ _ _; rfl
  | cons p odds ih =>
      intro picks rands hp hr hcert hrange
      cases picks with
      | nil => simp at hp
      | cons q picks =>
          cases rands with
          | nil => simp at hr
          | cons r rands =>
              have hhead : pickCorrect (decide (r < p)) q = true := by
                rcases hcert (p, q) (by simp) with ⟨hq, hp1⟩ | ⟨hq, hp0⟩
                · have hq' : q = 1 := hq
                  have hp1' : p = 1 := hp1
                  have hlt : r < p := by
                    rw [hp1']
                    exact (hrange r (by simp)).2
                  simp [pickCorrect, hlt, hq']
                · have hq' : q = 0 := hq
                  have hp0' : p = 0 := hp0
                  have hnlt : ¬ r < p := by
                    rw [hp0']
                    exact not_lt.mpr (hrange r (by simp)).1
                  simp [pickCorrect, hnlt, hq']
              have htail : trialScore odds picks rands = odds.length := by
                refine ih picks rands (by simpa using hp) (by simpa using hr) ?_ ?_
                · intro pr hpr
                  exact hcert pr (List.mem_cons_of_mem _ hpr)
                · intro x hx
                  exact hrange x (List.mem_cons_of_mem _ hx)
              rw [trialScore, matchOutcomes] at htail ⊢
              rw [List.zipWith_cons_cons, List.zip_cons_cons, List.countP_cons]
              rw [htail, hhead]
              simp [List.length_cons]

/-- Counting in a constant list. -/
theorem countP_replicate {α : Type} (p : α → Bool) (n : ℕ) (a : α) :
    (List.replicate n a).countP p = if p a then n else 0 := by
  induction n with
  | zero => simp
  | succ n ih =>
      rw [List.replicate_succ, List.countP_cons, ih]
      by_cases h : p a <;> simp [h]

/-- The tally of `m` identical scores `N` is `m` in bucket `N` and 0
elsewhere. -/
theorem histogram_replicate (m N : ℕ) :
    histogram (List.replicate m N) = (List.range 10).map fun b => if b = N then m else 0 := by
  rw [histogram]
  apply List.map_congr_left
  intro b _
  rw [countP_replicate]
  by_cases h : N = b
  · subst h; simp
  · simp [h, Ne.symm h]

/-- Summing an indicator map over `List.range`. -/
theorem sum_range_map_ite (m : ℕ) :
    ∀ {k N : ℕ}, N < k → (((List.range k).map fun b => if b = N then m else 0).sum = m) := by
  intro k
  induction k with
  | zero => intro N h; cases h
  | succ k ih =>
      intro N h
      rw [List.range_succ, List.map_append, List.sum_append]
      by_cases hk : N = k
      · subst hk
        have hzero : (((List.range N).map fun b => if b = N then m else 0)).sum = 0 := by
          apply List.sum_eq_zero
          intro x hx
          rcases List.mem_map.mp hx with ⟨b, hb, rfl⟩
          have := List.mem_range.mp hb
          simp [Nat.ne_of_lt this]
        rw [hzero]
        simp
      · have hlt : N < k := by omega
        rw [ih hlt]
        simp [Ne.symm hk]

/-! ## C9 -/

/-- C9 (amended): for slates of at most 9 matches in which every picked
side is certain (probability 1 where the pick is side A, probability 0
where it is side B), with at least one trial and all uniform draws in
`[0, 1)`, the simulator puts the whole probability mass on score `N`;
for 10 or more matches the call fails instead (see the counterexample). -/
theorem C9_certain_picks_full_mass (odds : List ℚ) (picks : List ℕ)
    (randss : List (List ℚ))
    (hlen : picks.length = odds.length)
    (hN : odds.length ≤ 9)
    (hcert : ∀ pr ∈ odds.zip picks, (pr.2 = 1 ∧ pr.1 = 1) ∨ (pr.2 = 0 ∧ pr.1 = 0))
    (hrands : ∀ t ∈ randss, t.length = odds.length ∧ ∀ r ∈ t, 0 ≤ r ∧ r < 1)
    (hne : randss ≠ []) :
    monteCarloSimulation odds picks randss =
      Except.ok ((List.range 10).map fun b => if b = odds.length then (1 : ℚ) else 0) := by
  have hscores : (randss.map fun rands => trialScore odds picks rands) =
      List.replicate randss.length odds.length := by
    rw [List.eq_replicate_iff]
    refine ⟨by rw [List.length_map], ?_⟩
    intro s hs
    rcases List.mem_map.mp hs with ⟨t, ht, rfl⟩
    exact trialScore_all_correct odds picks t hlen (hrands t ht).1 hcert (hrands t ht).2
  have hm : randss.length ≠ 0 := fun hz => hne (List.length_eq_zero.mp hz)
  have hsum : (histogram (randss.map fun rands => trialScore odds picks rands)).sum =
      randss.length := by
    rw [hscores, histogram_replicate]
    exact sum_range_map_ite randss.length (by omega)
  simp only [monteCarloSimulation]
  rw [if_neg (by rw [hsum]; exact hm)]
  rw [hsum, hscores, histogram_replicate, List.map_map]
  congr 1
  apply List.map_congr_left
  intro b _
  by_cases hb : b = odds.length
  · simp only [Function.comp, hb, if_pos rfl]
    exact div_self (Nat.cast_ne_zero.mpr hm)
  · simp only [Function.comp, if_neg hb]
    rw [Nat.cast_zero, zero_div]

/-- C9 witness: two certain picks, one trial — all mass lands on score 2. -/
theorem C9_certain_picks_full_mass_witness :
    monteCarloSimulation [1, 0] [1, 0] [[0, 0]] =
      Except.ok ((List.range 10).map fun b => if b = 2 then (1 : ℚ) else 0) :=
  C9_certain_picks_full_mass [1, 0] [1, 0] [[0, 0]] rfl (by decide)
    (by decide) (by decide) (by decide)

/-- C9 counterexample: with `N = 10` certain picks every trial scores 10,
which falls outside the 0..9 tally, so `simulate` raises instead of
returning a distribution with its mass at score `N`. -/
theorem C9_counterexample :
    monteCarloSimulation (List.replicate 10 (1 : ℚ)) (List.replicate 10 1)
        [List.replicate 10 (0 : ℚ)] =
      Except.error "ZeroDivisionError: division by zero" := by
  rfl

/-! ## C8 -/

/-- C8: the code computes `confidence = min(p, 1-p) * 2` (as the claim's
formula states), but that expression equals 1 at a 50/50 consensus and
shrinks to 0 as the favored side approaches certainty — the opposite of the
claimed (and code-commented) behavior of 0 at 50/50 approaching 1 at
certainty. -/
theorem C8_confidence_formula_inverted :
    (classifySingleMatch (3/4) [fiftyFiftyObs]).implied_win_rate = 1/2 ∧
    (classifySingleMatch (3/4) [fiftyFiftyObs]).confidence = 1 ∧
    (classifySingleMatch (3/4) [nearCertainObs]).implied_win_rate = 9/10 ∧
    (classifySingleMatch (3/4) [nearCertainObs]).confidence = 1/5 := by
  have hw : sourceWeight "mock_data" = 1/10 := rfl
  refine ⟨?_, ?_, ?_, ?_⟩ <;>
    norm_num [classifySingleMatch, hw, fiftyFiftyObs, nearCertainObs, min_def]
